import Mathlib

/-!
Verification of the token-authentication core of the congress-mcp repository.

The definitions below are a shallow embedding of the Python sources:
`token_manager.py`, `token_security.py`, `token_models.py` and the
`check_permission` functions of the server variants.  SQLite tables are
modelled as Lean lists of rows, instants (`datetime`) as integers (seconds),
and the CSPRNG draws (`secrets.choice`, `secrets.token_urlsafe`, ...) as
explicit parameters.  The Python-stdlib primitives `hashlib.sha256` /
`hmac` are implemented concretely (FIPS 180-4 / RFC 2104), and the
`ipaddress` parsing primitives are modelled for IPv4 dotted-quad inputs.
-/

set_option autoImplicit false

namespace CongressMcp

/-! ### SHA-256 (model of the `hashlib.sha256` primitive, FIPS 180-4)

Bytes are `Nat`s below 256, 32-bit words are `Nat`s reduced mod `2 ^ 32`. -/

def u32 (x : Nat) : Nat := x % 4294967296

def rotr (n x : Nat) : Nat := u32 ((x >>> n) ||| (x <<< (32 - n)))

def shaCh (x y z : Nat) : Nat := (x &&& y) ^^^ ((x ^^^ 4294967295) &&& z)

def shaMaj (x y z : Nat) : Nat := (x &&& y) ^^^ (x &&& z) ^^^ (y &&& z)

def bigSigma0 (x : Nat) : Nat := rotr 2 x ^^^ rotr 13 x ^^^ rotr 22 x

def bigSigma1 (x : Nat) : Nat := rotr 6 x ^^^ rotr 11 x ^^^ rotr 25 x

def smallSigma0 (x : Nat) : Nat := rotr 7 x ^^^ rotr 18 x ^^^ (x >>> 3)

def smallSigma1 (x : Nat) : Nat := rotr 17 x ^^^ rotr 19 x ^^^ (x >>> 10)

def shaK : List Nat :=
  [1116352408, 1899447441, 3049323471, 3921009573,
   961987163, 1508970993, 2453635748, 2870763221,
   3624381080, 310598401, 607225278, 1426881987,
   1925078388, 2162078206, 2614888103, 3248222580,
   3835390401, 4022224774, 264347078, 604807628,
   770255983, 1249150122, 1555081692, 1996064986,
   2554220882, 2821834349, 2952996808, 3210313671,
   3336571891, 3584528711, 113926993, 338241895,
   666307205, 773529912, 1294757372, 1396182291,
   1695183700, 1986661051, 2177026350, 2456956037,
   2730485921, 2820302411, 3259730800, 3345764771,
   3516065817, 3600352804, 4094571909, 275423344,
   430227734, 506948616, 659060556, 883997877,
   958139571, 1322822218, 1537002063, 1747873779,
   1955562222, 2024104815, 2227730452, 2361852424,
   2428436474, 2756734187, 3204031479, 3329325298]

/-- `n`-byte big-endian encoding of `v`. -/
def beBytes : Nat → Nat → List Nat
  | 0, _ => []
  | n + 1, v => beBytes n (v / 256) ++ [v % 256]

/-- FIPS 180-4 padding: `0x80`, zeros, then the 64-bit big-endian bit length. -/
def padMessage (msg : List Nat) : List Nat :=
  let len := msg.length
  let zeros := (64 - ((len + 9) % 64)) % 64
  msg ++ [128] ++ List.replicate zeros 0 ++ beBytes 8 (len * 8)

def chunks64Aux : Nat → List Nat → List (List Nat)
  | _, [] => []
  | 0, rest => [rest]
  | fuel + 1, b :: rest => (b :: rest).take 64 :: chunks64Aux fuel ((b :: rest).drop 64)

/-- Split into 64-byte blocks (each step consumes at least one byte, so the
length is enough fuel). -/
def chunks64 (l : List Nat) : List (List Nat) := chunks64Aux l.length l

def be32At (block : List Nat) (i : Nat) : Nat :=
  block.getD (4 * i) 0 * 16777216 + block.getD (4 * i + 1) 0 * 65536 +
    block.getD (4 * i + 2) 0 * 256 + block.getD (4 * i + 3) 0

def extendSchedule (w : List Nat) : Nat → List Nat
  | 0 => w
  | n + 1 =>
    let len := w.length
    let next := u32 (smallSigma1 (w.getD (len - 2) 0) + w.getD (len - 7) 0 +
      smallSigma0 (w.getD (len - 15) 0) + w.getD (len - 16) 0)
    extendSchedule (w ++ [next]) n

def msgSchedule (block : List Nat) : List Nat :=
  extendSchedule ((List.range 16).map (be32At block)) 48

structure Hash8 where
  a : Nat
  b : Nat
  c : Nat
  d : Nat
  e : Nat
  f : Nat
  g : Nat
  h : Nat

def shaRound (s : Hash8) (kw : Nat × Nat) : Hash8 :=
  let t1 := u32 (s.h + bigSigma1 s.e + shaCh s.e s.f s.g + kw.1 + kw.2)
  let t2 := u32 (bigSigma0 s.a + shaMaj s.a s.b s.c)
  ⟨u32 (t1 + t2), s.a, s.b, s.c, u32 (s.d + t1), s.e, s.f, s.g⟩

def compressBlock (h : Hash8) (block : List Nat) : Hash8 :=
  let s := (shaK.zip (msgSchedule block)).foldl shaRound h
  ⟨u32 (h.a + s.a), u32 (h.b + s.b), u32 (h.c + s.c), u32 (h.d + s.d),
   u32 (h.e + s.e), u32 (h.f + s.f), u32 (h.g + s.g), u32 (h.h + s.h)⟩

def shaInit : Hash8 :=
  ⟨1779033703, 3144134277, 1013904242, 2773480762,
   1359893119, 2600822924, 528734635, 1541459225⟩

/-- SHA-256 digest, bytes to bytes. -/
def sha256 (msg : List Nat) : List Nat :=
  let fin := (chunks64 (padMessage msg)).foldl compressBlock shaInit
  ([fin.a, fin.b, fin.c, fin.d, fin.e, fin.f, fin.g, fin.h].map (beBytes 4)).flatten

/-- HMAC-SHA256 (RFC 2104), the `hmac.new(key, msg, hashlib.sha256)` primitive. -/
def hmacSha256 (key msg : List Nat) : List Nat :=
  let k0 := if 64 < key.length then sha256 key else key
  let k1 := k0 ++ List.replicate (64 - k0.length) 0
  sha256 ((k1.map (fun b => b ^^^ 92)) ++ sha256 ((k1.map (fun b => b ^^^ 54)) ++ msg))

def hexOfBytes (bs : List Nat) : String :=
  String.mk (bs.foldr (fun b acc => Nat.digitChar (b / 16) :: Nat.digitChar (b % 16) :: acc) [])

/-- UTF-8 encoding of one code point. -/
def utf8Bytes (c : Char) : List Nat :=
  let n := c.toNat
  if n < 128 then [n]
  else if n < 2048 then [192 ||| (n >>> 6), 128 ||| (n &&& 63)]
  else if n < 65536 then
    [224 ||| (n >>> 12), 128 ||| ((n >>> 6) &&& 63), 128 ||| (n &&& 63)]
  else
    [240 ||| (n >>> 18), 128 ||| ((n >>> 12) &&& 63), 128 ||| ((n >>> 6) &&& 63),
     128 ||| (n &&& 63)]

/-- `str.encode()`: UTF-8 bytes of a string. -/
def strBytes (s : String) : List Nat :=
  (s.toList.map utf8Bytes).flatten

/-! ### `secrets.token_urlsafe` (model of the stdlib primitive)

`secrets.token_urlsafe(n)` is the padding-stripped base64url encoding of `n`
random bytes; the random bytes are an explicit parameter of the model. -/

def b64urlChars : List Char :=
  "ABCDEFGHIJKLMNOPQRSTUVWXYZabcdefghijklmnopqrstuvwxyz0123456789-_".toList

def b64c (n : Nat) : Char := b64urlChars.getD n 'A'

def b64urlEncode : List Nat → List Char
  | [] => []
  | [a] => [b64c (a / 4), b64c (a % 4 * 16)]
  | [a, b] => [b64c (a / 4), b64c (a % 4 * 16 + b / 16), b64c (b % 16 * 4)]
  | a :: b :: c :: rest =>
      b64c (a / 4) :: b64c (a % 4 * 16 + b / 16) :: b64c (b % 16 * 4 + c / 64) ::
        b64c (c % 64) :: b64urlEncode rest

def token_urlsafe (randomBytes : List Nat) : String :=
  String.mk (b64urlEncode randomBytes)

/-! ### `token_security.py` — `TokenSecurity`

`TOKEN_PREFIX = "enact_"`, `TOKEN_LENGTH = 32`; the alphabet of
`generate_token` is `string.ascii_letters + string.digits`. -/

def tokenAlphabet : List Char :=
  "abcdefghijklmnopqrstuvwxyzABCDEFGHIJKLMNOPQRSTUVWXYZ0123456789".toList

def TOKEN_LENGTH : Nat := 32

/-- `TokenSecurity.generate_token`: 32 draws of `secrets.choice(alphabet)`;
each draw is modelled as an index below 62 into the alphabet. -/
def generate_token (draws : List (Fin 62)) : String :=
  "enact_" ++ String.mk (draws.map (fun i => tokenAlphabet.getD i.val 'a'))

/-- `TokenSecurity.verify_token_format`: prefix, exact length, alphabet check.
`startswith` is rendered as equality of the first six characters. -/
def verify_token_format (token : String) : Bool :=
  let cs := token.toList
  if !(cs.take 6 == "enact_".toList) then false
  else if cs.length != 6 + TOKEN_LENGTH then false
  else (cs.drop 6).all (fun c => tokenAlphabet.contains c)

/-- `TokenSecurity.hash_token` and `TokenManager._hash_token`:
`hmac.new(secret_key.encode(), token.encode(), hashlib.sha256).hexdigest()`. -/
def hashToken (secret_key token : String) : String :=
  hexOfBytes (hmacSha256 (strBytes secret_key) (strBytes token))

/-! ### `token_security.py` — `RateLimiter`

`self.usage_windows` (a dict from token id to a timestamp list) is modelled
as an association list; instants are seconds, so `timedelta(hours=h)` is
`h * 3600`. -/

abbrev RlState : Type := List (String × List Int)

def getWindow : RlState → String → Option (List Int)
  | [], _ => none
  | (k, v) :: rest, key => if k = key then some v else getWindow rest key

def setWindow : RlState → String → List Int → RlState
  | [], key, v => [(key, v)]
  | (k, w) :: rest, key, v =>
    if k = key then (key, v) :: rest else (k, w) :: setWindow rest key v

/-- `RateLimiter.is_rate_limited` (returns the flag and the updated state):
purge entries `≤ now - window`, reject without recording when the remaining
count reaches `rate_limit`, otherwise record `now` and accept. -/
def is_rate_limited (st : RlState) (token_id : String) (rate_limit : Nat)
    (window_hours now : Int) : Bool × RlState :=
  let window_start := now - window_hours * 3600
  let purged := ((getWindow st token_id).getD []).filter (fun ts => window_start < ts)
  let st1 := setWindow st token_id purged
  if rate_limit ≤ purged.length then (true, st1)
  else (false, setWindow st1 token_id (purged ++ [now]))

/-- Repeated `is_rate_limited` calls for one token id at the given instants;
returns the list of flags and the final state. -/
def runLimiter (st : RlState) (token_id : String) (rate_limit : Nat)
    (window_hours : Int) : List Int → List Bool × RlState
  | [] => ([], st)
  | now :: rest =>
    let r := is_rate_limited st token_id rate_limit window_hours now
    let t := runLimiter r.2 token_id rate_limit window_hours rest
    (r.1 :: t.1, t.2)

/-! ### `token_manager.py` — `TokenManager`

The `tokens` table is a list of rows; `datetime` instants are integers and
`timedelta(days=d)` is `d * 86400`.  The `INSERT` is modelled as an append
(the UNIQUE constraints of the schema appear as hypotheses of the theorems;
a violating insert raises in the source and is outside the model). -/

structure Token where
  id : String
  name : String
  token_hash : String
  created_at : Int
  last_used : Option Int := none
  expires_at : Option Int := none
  permissions : String := "standard"
  active : Bool := true
  usage_count : Nat := 0
  deriving DecidableEq

/-- The row snapshot `validate_token` returns (the `token_data` dict). -/
structure TokenData where
  id : String
  name : String
  created_at : Int
  last_used : Option Int
  expires_at : Option Int
  permissions : String
  active : Bool
  usage_count : Nat
  deriving DecidableEq

def toTokenData (t : Token) : TokenData :=
  ⟨t.id, t.name, t.created_at, t.last_used, t.expires_at, t.permissions, t.active, t.usage_count⟩

/-- `TokenManager.create_token`.  The CSPRNG draws are parameters:
`token_id` stands for `secrets.token_hex(8)` and `randomBytes` for the bytes
behind `secrets.token_urlsafe(32)`.  `if expires_days:` is Python truthiness,
so both `None` and `0` leave `expires_at` NULL.  Returns the new table and
the `(token_id, actual_token)` pair. -/
def create_token (db : List Token) (secret_key token_id : String)
    (randomBytes : List Nat) (name permissions : String)
    (expires_days : Option Int) (now : Int) : List Token × String × String :=
  let token := "enact_" ++ token_urlsafe randomBytes
  let token_hash := hashToken secret_key token
  let expires_at : Option Int :=
    match expires_days with
    | none => none
    | some d => if d = 0 then none else some (now + d * 86400)
  (db ++ [{ id := token_id, name := name, token_hash := token_hash,
            created_at := now, expires_at := expires_at,
            permissions := permissions }],
   token_id, token)

/-- The `WHERE token_hash = ? AND active = 1` lookup of `validate_token`. -/
def findByHashActive (db : List Token) (token_hash : String) : Option Token :=
  db.find? (fun t => t.token_hash == token_hash && t.active)

/-- Truthy `expires_at` followed by `datetime.now() > expires`. -/
def isExpiredAt (expires_at : Option Int) (now : Int) : Bool :=
  match expires_at with
  | none => false
  | some expires => expires < now

/-- The `UPDATE tokens SET last_used = ?, usage_count = usage_count + 1
WHERE id = ?` statement. -/
def bumpUsage (db : List Token) (token_id : String) (now : Int) : List Token :=
  db.map (fun r =>
    if r.id == token_id then { r with last_used := some now, usage_count := r.usage_count + 1 }
    else r)

/-- `TokenManager.validate_token`: hash the credential, look it up among the
active rows, lazily reject when expired, otherwise update the usage columns
and return the row snapshot taken before the update. -/
def validate_token (db : List Token) (secret_key token : String) (now : Int) :
    Option TokenData × List Token :=
  let token_hash := hashToken secret_key token
  match findByHashActive db token_hash with
  | none => (none, db)
  | some t =>
    if isExpiredAt t.expires_at now then (none, db)
    else (some (toTokenData t), bumpUsage db t.id now)

/-- `TokenManager.revoke_token`: `UPDATE tokens SET active = 0 WHERE id = ?`;
the returned flag is `rowcount > 0`. -/
def revoke_token (db : List Token) (token_id : String) : List Token × Bool :=
  (db.map (fun r => if r.id == token_id then { r with active := false } else r),
   db.any (fun r => r.id == token_id))

/-- Repeated `validate_token` calls at the given instants; returns the list
of outcomes and the final table. -/
def validateTimes (db : List Token) (secret_key token : String) :
    List Int → List (Option TokenData) × List Token
  | [] => ([], db)
  | now :: rest =>
    let r := validate_token db secret_key token now
    let t := validateTimes r.2 secret_key token rest
    (r.1 :: t.1, t.2)

/-- `SELECT ... WHERE id = ?` row lookup. -/
def findById (db : List Token) (token_id : String) : Option Token :=
  db.find? (fun t => t.id == token_id)

/-! ### `check_permission`

The tool gate of `enactai_server_local_auth.py` and
`enactai_server_stateless.py`; the two bodies are character-identical in the
gating logic (one reads the module-global session token, the other takes the
token dict as a parameter).  Only the `permissions` key of the token dict is
consulted; `.get('permissions', 'read_only')` is the `getD`. -/

structure TokenInfo where
  permissions : Option String
  deriving DecidableEq

def read_only_tools : List String :=
  ["search_bills", "get_bill", "get_member", "get_committee",
   "get_congress_overview", "get_legislative_process", "search_amendments"]

def check_permission (require_auth : Bool) (token_info : Option TokenInfo)
    (tool_name : String) : Bool :=
  if !require_auth then true
  else
    match token_info with
    | none => false
    | some info =>
      let permissions := info.permissions.getD "read_only"
      if permissions == "admin" then true
      else if permissions == "standard" then true
      else if permissions == "read_only" then read_only_tools.contains tool_name
      else false

/-! ### `token_models.py` — `TokenDatabase.get_usage_stats`

The `token_usage` table is a list of events; SQL `COUNT`/`SUM`/`AVG` over the
filtered rows are rendered over the filtered list (`SUM`/`AVG` are NULL on
zero rows, which the Python coalesces with `or 0`); the float division is
rendered in `ℚ`. -/

structure UsageEvent where
  token_id : String
  timestamp : Int
  tool_name : String
  success : Bool
  response_time_ms : Option Int
  deriving DecidableEq

structure UsageStats where
  period_hours : Int
  total_requests : Nat
  successful_requests : Nat
  error_rate : ℚ
  avg_response_time_ms : ℚ
  tools_usage : List (String × Nat)
  deriving DecidableEq

def insertByCount (p : String × Nat) : List (String × Nat) → List (String × Nat)
  | [] => [p]
  | q :: rest => if q.2 ≤ p.2 then p :: q :: rest else q :: insertByCount p rest

/-- `GROUP BY tool_name ... ORDER BY count DESC` (tie order is unspecified in
SQL; a stable sort on the counts is used here). -/
def toolCounts (rows : List UsageEvent) : List (String × Nat) :=
  let names := (rows.map (fun e => e.tool_name)).dedup
  (names.map (fun n => (n, rows.countP (fun e => e.tool_name == n)))).foldr insertByCount []

/-- The `max(stats["total_requests"] or 1, 1)` denominator. -/
def statsDenominator (total : Nat) : Nat :=
  max (if total = 0 then 1 else total) 1

def get_usage_stats (events : List UsageEvent) (token_id : String)
    (now : Int) (hours : Int) : UsageStats :=
  let since := now - hours * 3600
  let relevant := events.filter (fun e => e.token_id == token_id && since ≤ e.timestamp)
  let total := relevant.length
  let successful := relevant.countP (fun e => e.success)
  let rts := relevant.filterMap (fun e => e.response_time_ms)
  { period_hours := hours,
    total_requests := total,
    successful_requests := successful,
    error_rate := ((total : ℚ) - (successful : ℚ)) / (statsDenominator total : ℚ),
    avg_response_time_ms :=
      if rts.isEmpty then 0
      else ((rts.foldl (fun acc x => acc + x) 0 : ℤ) : ℚ) / (rts.length : ℚ),
    tools_usage := toolCounts relevant }

/-! ### `token_security.py` — `IPValidator`

The stdlib `ipaddress` primitives are modelled for IPv4: `ip_address`
accepts exactly four dot-separated decimal octets (no empty part, digits
only, at most three digits, no leading zero, value ≤ 255);
`ip_network(..., strict=False)` masks the host bits; `str(ip)` is the dotted
quad.  (The stdlib also accepts IPv6 forms and netmask-style suffixes —
addresses and entries in the model range over the IPv4/CIDR forms.) -/

/-- `str.split(sep)` for a one-character separator, over the char list. -/
def splitOnChar (sep : Char) : List Char → List (List Char)
  | [] => [[]]
  | c :: rest =>
    let r := splitOnChar sep rest
    if c == sep then [] :: r
    else
      match r with
      | [] => [[c]]
      | h :: t => (c :: h) :: t

def digitsVal (cs : List Char) : Nat :=
  cs.foldl (fun acc c => acc * 10 + (c.toNat - 48)) 0

def parseOctet (cs : List Char) : Option Nat :=
  if cs.isEmpty then none
  else if !(cs.all Char.isDigit) then none
  else if 3 < cs.length then none
  else if 1 < cs.length && cs.headD '0' == '0' then none
  else
    let v := digitsVal cs
    if 255 < v then none else some v

/-- `ipaddress.ip_address` on dotted-quad input, as the 32-bit value. -/
def parseIPv4 (s : String) : Option Nat :=
  match splitOnChar '.' s.toList with
  | [p1, p2, p3, p4] =>
    match parseOctet p1, parseOctet p2, parseOctet p3, parseOctet p4 with
    | some a, some b, some c, some d => some (((a * 256 + b) * 256 + c) * 256 + d)
    | _, _, _, _ => none
  | _ => none

/-- `str(ip)` for an IPv4 address value. -/
def ipToString (v : Nat) : String :=
  toString (v / 16777216 % 256) ++ "." ++ toString (v / 65536 % 256) ++ "." ++
    toString (v / 256 % 256) ++ "." ++ toString (v % 256)

def parsePrefixLen (cs : List Char) : Option Nat :=
  if cs.isEmpty then none
  else if !(cs.all Char.isDigit) then none
  else
    let v := digitsVal cs
    if 32 < v then none else some v

/-- `ipaddress.ip_network(s, strict=False)`: base address (host bits masked
away) and prefix length. -/
def parseNetworkStr (s : String) : Option (Nat × Nat) :=
  match splitOnChar '/' s.toList with
  | [addr, plen] =>
    match parseIPv4 (String.mk addr), parsePrefixLen plen with
    | some a, some p => some (a / 2 ^ (32 - p) * 2 ^ (32 - p), p)
    | _, _ => none
  | _ => none

/-- `ip in network`. -/
def ipInNetwork (v : Nat) (net : Nat × Nat) : Bool :=
  v / 2 ^ (32 - net.2) == net.1 / 2 ^ (32 - net.2)

/-- The `for allowed in whitelist` loop.  A CIDR entry that fails to parse
raises `ValueError` in the source, which the surrounding `except` turns into
`False` for the whole call — hence the early `false`. -/
def whitelistScan (ip : Nat) : List String → Bool
  | [] => false
  | allowed :: rest =>
    if allowed.toList.contains '/' then
      match parseNetworkStr allowed with
      | none => false
      | some net => if ipInNetwork ip net then true else whitelistScan ip rest
    else
      if ipToString ip == allowed then true else whitelistScan ip rest

/-- `IPValidator.is_ip_in_whitelist`.  `if not whitelist:` is Python
truthiness, so both `None` and the empty list allow every address; a
candidate that fails to parse is rejected by the `except` handler. -/
def is_ip_in_whitelist (ip_address : String) (whitelist : Option (List String)) : Bool :=
  match whitelist with
  | none => true
  | some wl =>
    if wl.isEmpty then true
    else
      match parseIPv4 ip_address with
      | none => false
      | some ip => whitelistScan ip wl

/-! ### `token_models.py` — `TokenDatabase` token rows

The richer token schema (`tokens` table of `token_models.py`), used by the
manager behind `token_cli.py`. -/

structure MToken where
  id : String
  hashed_token : String
  name : String
  permissions : String
  rate_limit : Nat
  allowed_tools : Option (List String)
  ip_whitelist : Option (List String)
  expires_at : Option Int
  created_at : Int
  last_used_at : Option Int := none
  usage_count : Nat := 0
  is_active : Bool := true
  revoked_at : Option Int := none
  revoked_by : Option String := none
  revoked_reason : Option String := none
  deriving DecidableEq

/-- `TokenDatabase.create_token`: plain `INSERT` (UNIQUE hash as hypothesis). -/
def db_insert_token (db : List MToken) (t : MToken) : List MToken := db ++ [t]

/-- `TokenDatabase.get_token_by_id`: `SELECT * FROM tokens WHERE id = ?`. -/
def db_get_token_by_id (db : List MToken) (token_id : String) : Option MToken :=
  db.find? (fun t => t.id == token_id)

/-- `TokenDatabase.update_token_usage` with `increment_count = True`. -/
def db_update_token_usage (db : List MToken) (token_id : String) (now : Int) : List MToken :=
  db.map (fun t =>
    if t.id == token_id then { t with last_used_at := some now, usage_count := t.usage_count + 1 }
    else t)

/-- `TokenDatabase.revoke_token`: set `is_active = 0` plus revocation metadata. -/
def db_revoke_token (db : List MToken) (token_id revoker reason : String)
    (now : Int) : List MToken :=
  db.map (fun t =>
    if t.id == token_id then
      { t with is_active := false, revoked_at := some now,
               revoked_by := some revoker, revoked_reason := some reason }
    else t)

/-! ### Spec-modelled token manager (`authenticate` / `rotate_token`)

`token_cli.py` imports `get_token_manager` and calls `manager.rotate_token`
/ `manager.create_token` on a manager module that is not present under the
sources (the `token_manager.py` that is present is the older, simpler
manager with a different API).  The definitions of this section are
modelled from the spec. -/

/-- The error taxonomy of spec §7. -/
inductive AuthError where
  | malformed
  | invalidCredential
  | revoked
  | expired
  | toolNotPermitted
  | ipNotWhitelisted
  | rateLimited
  deriving DecidableEq

/-- The resolved identity returned on success (spec §4.5 step 8). -/
structure AuthSuccess where
  id : String
  name : String
  permissions : String
  allowed_tools : Option (List String)
  deriving DecidableEq

/-- Modelled from the spec: the permission-tier table of §4.5 —
`read_only` is granted only the enumerated read tools, `standard` and
`admin` all tools. -/
def tierAllows (permissions tool_name : String) : Bool :=
  if permissions == "read_only" then read_only_tools.contains tool_name else true

/-- Modelled from the spec: step 5 of `authenticate` — the tier must allow
the tool and, when `allowed_tools` is set, the tool must be a member. -/
def toolAllowed (t : MToken) : Option String → Bool
  | none => true
  | some n =>
    tierAllows t.permissions n &&
      (match t.allowed_tools with
       | none => true
       | some l => l.contains n)

/-- Modelled from the spec: `TokenManager.authenticate` (spec §4.5 steps
1–8), a definition absent from the sources (only its CLI caller is
present): format check, lookup by hash, `is_active`, expiry, tool, IP and
rate-limit checks in that order, then `touch` and return the identity. -/
def authenticate (db : List MToken) (rl : RlState) (secret_key secret : String)
    (tool_name caller_ip : Option String) (now : Int) :
    Except AuthError AuthSuccess × List MToken × RlState :=
  if !verify_token_format secret then (.error .malformed, db, rl)
  else
    match db.find? (fun t => t.hashed_token == hashToken secret_key secret) with
    | none => (.error .invalidCredential, db, rl)
    | some t =>
      if !t.is_active then (.error .revoked, db, rl)
      else if isExpiredAt t.expires_at now then (.error .expired, db, rl)
      else if !toolAllowed t tool_name then (.error .toolNotPermitted, db, rl)
      else if caller_ip.any (fun a => !is_ip_in_whitelist a t.ip_whitelist) then
        (.error .ipNotWhitelisted, db, rl)
      else
        let r := is_rate_limited rl t.id t.rate_limit 1 now
        if r.1 then (.error .rateLimited, db, r.2)
        else (.ok ⟨t.id, t.name, t.permissions, t.allowed_tools⟩,
              db_update_token_usage db t.id now, r.2)

/-- Modelled from the spec: `TokenManager.rotate_token` (spec §4.5/§6,
absent from the sources) — in one step, revoke the original token and
insert a replacement carrying the same metadata; the fresh CSPRNG draws
(`new_id`, `new_secret`) are parameters; returns the new table and the new
raw secret, or `none` when the identifier is unknown. -/
def rotate_token (db : List MToken) (secret_key identifier new_id new_secret revoker : String)
    (now : Int) : Option (List MToken × String) :=
  match db_get_token_by_id db identifier with
  | none => none
  | some old =>
    let db2 := db_revoke_token db old.id revoker "Rotated" now
    let fresh : MToken :=
      { id := new_id, hashed_token := hashToken secret_key new_secret,
        name := old.name, permissions := old.permissions,
        rate_limit := old.rate_limit, allowed_tools := old.allowed_tools,
        ip_whitelist := old.ip_whitelist, expires_at := old.expires_at,
        created_at := now }
    some (db_insert_token db2 fresh, new_secret)

/-! ### Helper lemmas -/

section Helpers

variable {α : Type}

lemma find?_of_key_unique (key : α → String) (p : α → Bool) :
    ∀ (l : List α) (t : α),
      l.Pairwise (fun a b => key a ≠ key b) →
      t ∈ l → p t = true → (∀ u, p u = true → key u = key t) →
      l.find? p = some t
  | [], t, _, ht, _, _ => absurd ht (List.not_mem_nil t)
  | u :: rest, t, hp, ht, hpt, hkey => by
      rw [List.pairwise_cons] at hp
      rcases List.mem_cons.mp ht with rfl | htr
      · exact List.find?_cons_of_pos rest hpt
      · have hpu : ¬ p u = true := by
          cases hu : p u with
          | false => exact Bool.false_ne_true
          | true => exact absurd (hkey u hu) (hp.1 t htr)
        rw [List.find?_cons_of_neg rest hpu]
        exact find?_of_key_unique key p rest t hp.2 htr hpt hkey

lemma eq_of_pairwise_key (key : α → String) :
    ∀ (l : List α) (u t : α),
      l.Pairwise (fun a b => key a ≠ key b) →
      u ∈ l → t ∈ l → key u = key t → u = t
  | [], u, _, _, hu, _, _ => absurd hu (List.not_mem_nil u)
  | a :: rest, u, t, hp, hu, ht, hk => by
      rw [List.pairwise_cons] at hp
      rcases List.mem_cons.mp hu with rfl | hur <;> rcases List.mem_cons.mp ht with rfl | htr
      · rfl
      · exact absurd hk (hp.1 t htr)
      · exact absurd hk.symm (hp.1 u hur)
      · exact eq_of_pairwise_key key rest u t hp.2 hur htr hk

lemma find?_append_left_none (p : α → Bool) :
    ∀ (l₁ l₂ : List α), (∀ u ∈ l₁, p u = false) → (l₁ ++ l₂).find? p = l₂.find? p
  | [], _, _ => by simp
  | u :: rest, l₂, h => by
      rw [List.cons_append,
        List.find?_cons_of_neg _ (by simp [h u (List.mem_cons_self u rest)])]
      exact find?_append_left_none p rest l₂ (fun v hv => h v (List.mem_cons_of_mem u hv))

lemma find?_map_keyed (f : α → α) (p : α → Bool) (hpf : ∀ u, p (f u) = p u) :
    ∀ l : List α, (l.map f).find? p = (l.find? p).map f
  | [] => rfl
  | u :: rest => by
      cases hu : p u with
      | true =>
        rw [List.map_cons, List.find?_cons_of_pos _ ((hpf u).trans hu),
          List.find?_cons_of_pos _ hu]
        rfl
      | false =>
        rw [List.map_cons, List.find?_cons_of_neg _ (by simp [(hpf u).trans hu]),
          List.find?_cons_of_neg _ (by simp [hu])]
        exact find?_map_keyed f p hpf rest

end Helpers

/-! ### C7 — permission tiers of `check_permission` -/

/-- C7: with authentication required and a session token present, an
`admin` token is granted every tool, a `standard` token is granted every
tool, and a `read_only` token is granted exactly the tools of the fixed
`read_only_tools` list. -/
theorem C7_permission_tiers :
    ∀ tool_name : String,
      check_permission true (some ⟨some "admin"⟩) tool_name = true ∧
      check_permission true (some ⟨some "standard"⟩) tool_name = true ∧
      check_permission true (some ⟨some "read_only"⟩) tool_name =
        read_only_tools.contains tool_name := by
  intro tool_name
  exact ⟨rfl, rfl, rfl⟩

/-! ### C10 — empty whitelist allows everything -/

/-- C10: a present-but-empty whitelist behaves exactly like an absent one:
`is_ip_in_whitelist` returns `true` for every candidate address, including
strings that do not parse as an IP address. -/
theorem C10_empty_whitelist_allows_all :
    ∀ a : String,
      is_ip_in_whitelist a (some []) = true ∧
      is_ip_in_whitelist a (some []) = is_ip_in_whitelist a none := by
  intro a
  exact ⟨rfl, rfl⟩

/-! ### C9 — zero-usage window statistics -/

/-- C9: when no usage event of the token falls inside the trailing window,
`get_usage_stats` is total and returns zero totals and a zero error rate
(the divisor expression evaluates to 1, so no division by zero occurs). -/
theorem C9_zero_usage_stats (events : List UsageEvent) (token_id : String)
    (now hours : Int)
    (h : ∀ e ∈ events, e.token_id = token_id → e.timestamp < now - hours * 3600) :
    get_usage_stats events token_id now hours =
      { period_hours := hours, total_requests := 0, successful_requests := 0,
        error_rate := 0, avg_response_time_ms := 0, tools_usage := [] } ∧
    statsDenominator 0 = 1 := by
  have hfil :
      events.filter (fun e => e.token_id == token_id
        && decide (now - hours * 3600 ≤ e.timestamp)) = [] := by
    rw [List.filter_eq_nil_iff]
    intro e he
    simp only [Bool.and_eq_true, beq_iff_eq, decide_eq_true_eq, not_and]
    intro h1 h2
    exact absurd h2 (not_le.mpr (h e he h1))
  refine ⟨?_, rfl⟩
  simp only [get_usage_stats]
  rw [hfil]
  simp [toolCounts, statsDenominator]

/-- C9 witness: a token whose only event is far outside the 24-hour window. -/
theorem C9_zero_usage_stats_witness :
    get_usage_stats [⟨"t", -100000, "get_bill", true, none⟩] "t" 0 24 =
      { period_hours := 24, total_requests := 0, successful_requests := 0,
        error_rate := 0, avg_response_time_ms := 0, tools_usage := [] } ∧
    statsDenominator 0 = 1 :=
  C9_zero_usage_stats [⟨"t", -100000, "get_bill", true, none⟩] "t" 0 24
    (by intro e he h1; simp at he; rw [he]; decide)

/-! ### C3 — sliding-window rate limiter -/

lemma getWindow_setWindow_self :
    ∀ (st : RlState) (k : String) (v : List Int),
      getWindow (setWindow st k v) k = some v
  | [], k, v => by simp [setWindow, getWindow]
  | (a, w) :: rest, k, v => by
      by_cases h : a = k
      · simp [setWindow, getWindow, h]
      · simp [setWindow, getWindow, h, getWindow_setWindow_self rest k v]

lemma map_ext_mem {β γ : Type} (f g : β → γ) :
    ∀ l : List β, (∀ a ∈ l, f a = g a) → l.map f = l.map g
  | [], _ => rfl
  | a :: rest, h => by
      rw [List.map_cons, List.map_cons, h a (List.mem_cons_self a rest),
        map_ext_mem f g rest (fun b hb => h b (List.mem_cons_of_mem a hb))]

lemma runLimiter_burst (token_id : String) (N : Nat) (wh : Int) :
    ∀ (ts : List Int) (st : RlState) (pre : List Int),
      (getWindow st token_id).getD [] = pre →
      (∀ x ∈ pre, ∀ t ∈ ts, t - wh * 3600 < x) →
      (∀ t1 ∈ ts, ∀ t2 ∈ ts, t2 - wh * 3600 < t1) →
      pre.length ≤ N →
      (runLimiter st token_id N wh ts).1 =
        (List.range ts.length).map (fun i => decide (N ≤ pre.length + i))
  | [], _, _, _, _, _, _ => by simp [runLimiter]
  | t :: rest, st, pre, hg, hpre, hts, hlen => by
      have hfil : pre.filter (fun x => decide (t - wh * 3600 < x)) = pre := by
        rw [List.filter_eq_self]
        intro x hx
        simpa using hpre x hx t (List.mem_cons_self t rest)
      rw [List.length_cons, List.range_succ_eq_map, List.map_cons, List.map_map]
      by_cases hN : N ≤ pre.length
      · have hstep : is_rate_limited st token_id N wh t = (true, setWindow st token_id pre) := by
          simp only [is_rate_limited, hg, hfil]
          rw [if_pos hN]
        have ih := runLimiter_burst token_id N wh rest (setWindow st token_id pre) pre
          (by rw [getWindow_setWindow_self]; rfl)
          (fun x hx u hu => hpre x hx u (List.mem_cons_of_mem t hu))
          (fun t1 h1 t2 h2 =>
            hts t1 (List.mem_cons_of_mem t h1) t2 (List.mem_cons_of_mem t h2))
          hlen
        simp only [runLimiter, hstep, ih]
        refine congrArg₂ _ (by simp [decide_eq_true hN]) ?_
        refine map_ext_mem _ _ _ (fun i _ => ?_)
        simp only [Function.comp]
        rw [decide_eq_true (by omega : N ≤ pre.length + i),
          decide_eq_true (by omega : N ≤ pre.length + Nat.succ i)]
      · have hlt : pre.length < N := Nat.lt_of_not_le hN
        have hstep : is_rate_limited st token_id N wh t =
            (false, setWindow (setWindow st token_id pre) token_id (pre ++ [t])) := by
          simp only [is_rate_limited, hg, hfil]
          rw [if_neg hN]
        have ih := runLimiter_burst token_id N wh rest
          (setWindow (setWindow st token_id pre) token_id (pre ++ [t])) (pre ++ [t])
          (by rw [getWindow_setWindow_self]; rfl)
          (fun x hx u hu => by
            rcases List.mem_append.mp hx with hxp | hxt
            · exact hpre x hxp u (List.mem_cons_of_mem t hu)
            · have : x = t := by simpa using hxt
              subst this
              exact hts x (List.mem_cons_self x rest) u (List.mem_cons_of_mem x hu))
          (fun t1 h1 t2 h2 =>
            hts t1 (List.mem_cons_of_mem t h1) t2 (List.mem_cons_of_mem t h2))
          (by simp only [List.length_append, List.length_cons, List.length_nil]; omega)
        simp only [runLimiter, hstep, ih]
        refine congrArg₂ _ (by simp; omega) ?_
        refine map_ext_mem _ _ _ (fun i _ => ?_)
        simp only [Function.comp, List.length_append, List.length_cons, List.length_nil]
        rw [decide_eq_decide]
        omega

/-- C3: the rate limiter (i) purges the timestamps that have left the
window, then rejects without recording when the remaining count has reached
the limit and otherwise records `now` and accepts; (ii) starting fresh, in
any burst of calls that all lie within one window of each other, exactly
the first `N` calls are accepted and every later call is rejected;
(iii) once every recorded timestamp has aged out of the window, a call is
accepted again. -/
theorem C3_rate_limiter :
    (∀ (st : RlState) (token_id : String) (N : Nat) (wh now : Int),
      (N ≤ (((getWindow st token_id).getD []).filter
          (fun x => decide (now - wh * 3600 < x))).length →
        is_rate_limited st token_id N wh now =
          (true, setWindow st token_id (((getWindow st token_id).getD []).filter
            (fun x => decide (now - wh * 3600 < x))))) ∧
      ((((getWindow st token_id).getD []).filter
          (fun x => decide (now - wh * 3600 < x))).length < N →
        is_rate_limited st token_id N wh now =
          (false, setWindow (setWindow st token_id (((getWindow st token_id).getD []).filter
              (fun x => decide (now - wh * 3600 < x)))) token_id
            ((((getWindow st token_id).getD []).filter
              (fun x => decide (now - wh * 3600 < x))) ++ [now])))) ∧
    (∀ (token_id : String) (N : Nat) (wh : Int) (ts : List Int),
      (∀ t1 ∈ ts, ∀ t2 ∈ ts, t2 - wh * 3600 < t1) →
      (runLimiter [] token_id N wh ts).1 =
        (List.range ts.length).map (fun i => decide (N ≤ i))) ∧
    (∀ (st : RlState) (token_id : String) (N : Nat) (wh now : Int),
      1 ≤ N →
      (∀ x ∈ (getWindow st token_id).getD [], x ≤ now - wh * 3600) →
      (is_rate_limited st token_id N wh now).1 = false) := by
  refine ⟨?_, ?_, ?_⟩
  · intro st token_id N wh now
    constructor
    · intro hN
      simp only [is_rate_limited]
      rw [if_pos hN]
    · intro hN
      simp only [is_rate_limited]
      rw [if_neg (Nat.not_le.mpr hN)]
  · intro token_id N wh ts hts
    have h := runLimiter_burst token_id N wh ts [] [] rfl (by simp) hts (by simp)
    rw [h]
    exact map_ext_mem _ _ _ (fun i _ => by simp)
  · intro st token_id N wh now hN hold
    have hfil : ((getWindow st token_id).getD []).filter
        (fun x => decide (now - wh * 3600 < x)) = [] := by
      rw [List.filter_eq_nil_iff]
      intro x hx
      simpa using hold x hx
    simp only [is_rate_limited, hfil]
    rw [if_neg (by simp only [List.length_nil]; omega)]

/-- C3 witness: with limit 3 and a one-hour window, four calls inside one
window are accepted, accepted, accepted, rejected; and from a state whose
only recorded timestamp has aged out, a call with limit 1 is accepted. -/
theorem C3_rate_limiter_witness :
    (runLimiter [] "t" 3 1 [0, 10, 20, 30]).1 = [false, false, false, true] ∧
    (is_rate_limited [("t", [0])] "t" 1 1 3600).1 = false := by
  constructor
  · have h := C3_rate_limiter.2.1 "t" 3 1 [0, 10, 20, 30] (by decide)
    simpa using h
  · exact C3_rate_limiter.2.2 [("t", [0])] "t" 1 1 3600 (by decide) (by decide)

/-! ### C2 — inactive tokens never validate -/

/-- C2: (i) a token row whose `active` flag is false never validates — for
any credential hashing to that row, `validate_token` returns no token data
and leaves the table unchanged, regardless of the row's other fields;
(ii) after `revoke_token token_id`, every row with that id has
`active = false`; (iii) revocation changes no row's hash and no row's id,
so (i) applies to the revoked token's credential afterwards. -/
theorem C2_inactive_never_validates :
    (∀ (db : List Token) (secret_key secret : String) (now : Int) (t : Token),
      db.Pairwise (fun a b => a.token_hash ≠ b.token_hash) →
      t ∈ db → t.active = false → t.token_hash = hashToken secret_key secret →
      validate_token db secret_key secret now = (none, db)) ∧
    (∀ (db : List Token) (token_id : String) (t : Token),
      t ∈ (revoke_token db token_id).1 → t.id = token_id → t.active = false) ∧
    (∀ (db : List Token) (token_id : String),
      (revoke_token db token_id).1.map (fun t => t.token_hash) =
        db.map (fun t => t.token_hash) ∧
      (revoke_token db token_id).1.map (fun t => t.id) = db.map (fun t => t.id)) := by
  refine ⟨?_, ?_, ?_⟩
  · intro db secret_key secret now t hp hmem hact hhash
    have hnone : findByHashActive db (hashToken secret_key secret) = none := by
      rw [findByHashActive, List.find?_eq_none]
      intro u hu hcontra
      rw [Bool.and_eq_true, beq_iff_eq] at hcontra
      have hut : u = t :=
        eq_of_pairwise_key (fun x => x.token_hash) db u t hp hu hmem
          (hcontra.1.trans hhash.symm)
      rw [hut, hact] at hcontra
      exact Bool.false_ne_true hcontra.2
    rw [validate_token, hnone]
  · intro db token_id t ht hid
    rw [revoke_token] at ht
    rcases List.mem_map.mp ht with ⟨u, _, hu⟩
    by_cases h : (u.id == token_id) = true
    · rw [if_pos h] at hu
      rw [← hu]
    · rw [if_neg h] at hu
      rw [← hu] at hid
      exact absurd (beq_iff_eq.mpr hid) h
  · intro db token_id
    constructor <;>
    · rw [revoke_token, List.map_map]
      refine map_ext_mem _ _ _ (fun u _ => ?_)
      simp only [Function.comp]
      by_cases h : (u.id == token_id) = true <;> simp [h]

/-- C2 witness: an inactive token row is not validated by its own
credential. -/
theorem C2_inactive_never_validates_witness :
    validate_token
      [{ id := "tid", name := "n", token_hash := hashToken "k" "s", created_at := 0,
         last_used := none, expires_at := none, permissions := "standard",
         active := false, usage_count := 7 }] "k" "s" 5 =
      (none,
       [{ id := "tid", name := "n", token_hash := hashToken "k" "s", created_at := 0,
          last_used := none, expires_at := none, permissions := "standard",
          active := false, usage_count := 7 }]) :=
  C2_inactive_never_validates.1
    [{ id := "tid", name := "n", token_hash := hashToken "k" "s", created_at := 0,
       last_used := none, expires_at := none, permissions := "standard",
       active := false, usage_count := 7 }] "k" "s" 5
    { id := "tid", name := "n", token_hash := hashToken "k" "s", created_at := 0,
      last_used := none, expires_at := none, permissions := "standard",
      active := false, usage_count := 7 }
    (by simp) (by simp) rfl rfl

/-! ### C8 — usage counters are updated exactly on successful validation -/

lemma validate_single_row (secret_key tok i n h : String) (ca : Int) (pm : String)
    (hh : h = hashToken secret_key tok) :
    ∀ (times : List Int) (k : Nat) (lu : Option Int),
      ((validateTimes [⟨i, n, h, ca, lu, none, pm, true, k⟩] secret_key tok times).1.all
        (fun r => r.isSome) = true) ∧
      ∃ lu', (validateTimes [⟨i, n, h, ca, lu, none, pm, true, k⟩] secret_key tok times).2 =
        [⟨i, n, h, ca, lu', none, pm, true, k + times.length⟩]
  | [], k, lu => ⟨by simp [validateTimes], ⟨lu, by simp [validateTimes]⟩⟩
  | t :: rest, k, lu => by
      have hfind : findByHashActive [⟨i, n, h, ca, lu, none, pm, true, k⟩]
          (hashToken secret_key tok) = some ⟨i, n, h, ca, lu, none, pm, true, k⟩ := by
        rw [findByHashActive]
        simp [hh]
      have hstep : validate_token [⟨i, n, h, ca, lu, none, pm, true, k⟩] secret_key tok t =
          (some (toTokenData ⟨i, n, h, ca, lu, none, pm, true, k⟩),
           [⟨i, n, h, ca, some t, none, pm, true, k + 1⟩]) := by
        rw [validate_token, hfind]
        simp [isExpiredAt, bumpUsage]
      have ih := validate_single_row secret_key tok i n h ca pm hh rest (k + 1) (some t)
      obtain ⟨hall, lu', hdb⟩ := ih
      constructor
      · simp only [validateTimes, hstep]
        simp [hall]
      · refine ⟨lu', ?_⟩
        simp only [validateTimes, hstep, hdb, List.length_cons]
        refine congrArg (fun m => [Token.mk i n h ca lu' none pm true m]) ?_
        omega

/-- C8: (i) a successful validation returns the row's pre-update snapshot
and applies exactly the usage update: the validated row's `usage_count`
grows by one and its `last_used` becomes `now`, while every other row is
unchanged; (ii) when validation fails the table is unchanged; (iii) after
`create_token`, N successive validations with the returned secret all
succeed and leave `usage_count = N`. -/
theorem C8_usage_count_effects :
    (∀ (db : List Token) (secret_key secret : String) (now : Int) (t : Token),
      db.Pairwise (fun a b => a.token_hash ≠ b.token_hash) →
      db.Pairwise (fun a b => a.id ≠ b.id) →
      t ∈ db → t.active = true → t.token_hash = hashToken secret_key secret →
      isExpiredAt t.expires_at now = false →
      validate_token db secret_key secret now =
        (some (toTokenData t), bumpUsage db t.id now) ∧
      findById (bumpUsage db t.id now) t.id =
        some { t with last_used := some now, usage_count := t.usage_count + 1 } ∧
      ∀ u ∈ db, u.id ≠ t.id → u ∈ bumpUsage db t.id now) ∧
    (∀ (db : List Token) (secret_key secret : String) (now : Int),
      (validate_token db secret_key secret now).1 = none →
      (validate_token db secret_key secret now).2 = db) ∧
    (∀ (secret_key token_id : String) (randomBytes : List Nat)
        (name permissions : String) (now0 : Int) (times : List Int),
      ((validateTimes (create_token [] secret_key token_id randomBytes name
          permissions none now0).1 secret_key
        (create_token [] secret_key token_id randomBytes name permissions none now0).2.2
        times).1.all (fun r => r.isSome) = true) ∧
      ((validateTimes (create_token [] secret_key token_id randomBytes name
          permissions none now0).1 secret_key
        (create_token [] secret_key token_id randomBytes name permissions none now0).2.2
        times).2.map (fun r => r.usage_count) = [times.length])) := by
  refine ⟨?_, ?_, ?_⟩
  · intro db secret_key secret now t hph hpi hmem hact hhash hexp
    have hfind : findByHashActive db (hashToken secret_key secret) = some t := by
      refine find?_of_key_unique (fun x => x.token_hash) _ db t hph hmem ?_ ?_
      · rw [Bool.and_eq_true, beq_iff_eq]
        exact ⟨hhash, hact⟩
      · intro u hu
        rw [Bool.and_eq_true, beq_iff_eq] at hu
        exact hu.1.trans hhash.symm
    refine ⟨?_, ?_, ?_⟩
    · rw [validate_token, hfind]
      simp [hexp]
    · have hpf : ∀ u : Token,
          ((if u.id == t.id then
              { u with last_used := some now, usage_count := u.usage_count + 1 }
            else u).id == t.id) = (u.id == t.id) := by
        intro u
        by_cases h : (u.id == t.id) = true <;> simp [h]
      simp only [bumpUsage, findById]
      rw [find?_map_keyed _ _ hpf]
      have hid : db.find? (fun u => u.id == t.id) = some t := by
        refine find?_of_key_unique (fun x => x.id) _ db t hpi hmem (by simp) ?_
        intro u hu
        exact beq_iff_eq.mp hu
      simp only [findById] at hid
      rw [hid]
      simp
    · intro u hu hne
      have hmm := List.mem_map_of_mem (fun r : Token =>
        if r.id == t.id then
          { r with last_used := some now, usage_count := r.usage_count + 1 }
        else r) hu
      simp only [bumpUsage]
      simpa [hne] using hmm
  · intro db secret_key secret now h
    rcases hf : findByHashActive db (hashToken secret_key secret) with _ | t
    · simp [validate_token, hf]
    · by_cases he : isExpiredAt t.expires_at now = true
      · simp [validate_token, hf, he]
      · exfalso
        simp [validate_token, hf, he] at h
  · intro secret_key token_id randomBytes name permissions now0 times
    have h := validate_single_row secret_key
      ("enact_" ++ token_urlsafe randomBytes) token_id name
      (hashToken secret_key ("enact_" ++ token_urlsafe randomBytes)) now0 permissions
      rfl times 0 none
    obtain ⟨hall, lu', hdb⟩ := h
    have hc : create_token [] secret_key token_id randomBytes name permissions none now0 =
        ([⟨token_id, name, hashToken secret_key ("enact_" ++ token_urlsafe randomBytes),
           now0, none, none, permissions, true, 0⟩], token_id,
         "enact_" ++ token_urlsafe randomBytes) := rfl
    rw [hc]
    exact ⟨hall, by rw [hdb]; simp⟩

/-- C8 witness: one successful validation of a fresh active row bumps its
usage count from 0 to 1 and records the instant. -/
theorem C8_usage_count_effects_witness :
    validate_token
      [{ id := "tid", name := "n", token_hash := hashToken "k" "s", created_at := 0,
         last_used := none, expires_at := none, permissions := "standard",
         active := true, usage_count := 0 }] "k" "s" 5 =
      (some (toTokenData
        { id := "tid", name := "n", token_hash := hashToken "k" "s", created_at := 0,
          last_used := none, expires_at := none, permissions := "standard",
          active := true, usage_count := 0 }),
       bumpUsage
        [{ id := "tid", name := "n", token_hash := hashToken "k" "s", created_at := 0,
           last_used := none, expires_at := none, permissions := "standard",
           active := true, usage_count := 0 }] "tid" 5) ∧
    findById (bumpUsage
      [{ id := "tid", name := "n", token_hash := hashToken "k" "s", created_at := 0,
         last_used := none, expires_at := none, permissions := "standard",
         active := true, usage_count := 0 }] "tid" 5) "tid" =
      some { id := "tid", name := "n", token_hash := hashToken "k" "s", created_at := 0,
             last_used := some 5, expires_at := none, permissions := "standard",
             active := true, usage_count := 1 } := by
  have h := C8_usage_count_effects.1
    [{ id := "tid", name := "n", token_hash := hashToken "k" "s", created_at := 0,
       last_used := none, expires_at := none, permissions := "standard",
       active := true, usage_count := 0 }] "k" "s" 5
    { id := "tid", name := "n", token_hash := hashToken "k" "s", created_at := 0,
      last_used := none, expires_at := none, permissions := "standard",
      active := true, usage_count := 0 }
    (by simp) (by simp) (by simp) rfl rfl rfl
  exact ⟨h.1, h.2.1⟩

/-! ### C1 — `expires_days = 0` and past expiry -/

/-- C1 counterexample: a token created with `expires_days = 0` validates
SUCCESSFULLY much later (Python's `if expires_days:` treats 0 like `None`,
so no expiry is stored), contradicting the claim that such a credential is
rejected as expired and never accepted. -/
theorem C1_counterexample :
    (validate_token
      (create_token [] "k" "tid" (List.replicate 32 0) "demo" "standard" (some 0) 0).1
      "k"
      (create_token [] "k" "tid" (List.replicate 32 0) "demo" "standard" (some 0) 0).2.2
      1000000).1.isSome = true := by
  simp [create_token, validate_token, findByHashActive, isExpiredAt]

/-- C1 (amended): (i) `create_token` with `expires_days = 0` behaves
identically to `expires_days = None` — the stored row has no expiry — and
(ii) its credential then validates successfully at any later instant;
(iii) a token whose stored expiry instant lies in the past is rejected by
`validate_token` with the `none` outcome, which by (iv) is the same outcome
an unknown credential receives: the simple manager has no distinct
`Expired` result. -/
theorem C1_zero_expiry_amended :
    (∀ (db : List Token) (secret_key token_id : String) (randomBytes : List Nat)
        (name permissions : String) (now : Int),
      create_token db secret_key token_id randomBytes name permissions (some 0) now =
        create_token db secret_key token_id randomBytes name permissions none now) ∧
    (∀ (db : List Token) (secret_key token_id : String) (randomBytes : List Nat)
        (name permissions : String) (now now' : Int),
      (∀ u ∈ db, u.token_hash ≠
        hashToken secret_key ("enact_" ++ token_urlsafe randomBytes)) →
      (validate_token
        (create_token db secret_key token_id randomBytes name permissions (some 0) now).1
        secret_key
        (create_token db secret_key token_id randomBytes name permissions (some 0) now).2.2
        now').1.isSome = true) ∧
    (∀ (db : List Token) (secret_key secret : String) (now : Int) (t : Token) (e : Int),
      db.Pairwise (fun a b => a.token_hash ≠ b.token_hash) →
      t ∈ db → t.active = true → t.token_hash = hashToken secret_key secret →
      t.expires_at = some e → e < now →
      validate_token db secret_key secret now = (none, db)) ∧
    (∀ (db : List Token) (secret_key secret : String) (now : Int),
      (∀ u ∈ db, u.token_hash ≠ hashToken secret_key secret) →
      validate_token db secret_key secret now = (none, db)) := by
  refine ⟨?_, ?_, ?_, ?_⟩
  · intro db secret_key token_id randomBytes name permissions now
    rfl
  · intro db secret_key token_id randomBytes name permissions now now' h
    have hc : create_token db secret_key token_id randomBytes name permissions
        (some 0) now =
        (db ++ [⟨token_id, name,
            hashToken secret_key ("enact_" ++ token_urlsafe randomBytes),
            now, none, none, permissions, true, 0⟩], token_id,
         "enact_" ++ token_urlsafe randomBytes) := rfl
    rw [hc]
    have hfind : findByHashActive
        (db ++ [⟨token_id, name,
            hashToken secret_key ("enact_" ++ token_urlsafe randomBytes),
            now, none, none, permissions, true, 0⟩])
        (hashToken secret_key ("enact_" ++ token_urlsafe randomBytes)) =
        some ⟨token_id, name,
          hashToken secret_key ("enact_" ++ token_urlsafe randomBytes),
          now, none, none, permissions, true, 0⟩ := by
      rw [findByHashActive,
        find?_append_left_none _ db _ (fun u hu => by simp [h u hu])]
      simp
    rw [validate_token, hfind]
    simp [isExpiredAt]
  · intro db secret_key secret now t e hp hmem hact hhash hexpeq hlt
    have hfind : findByHashActive db (hashToken secret_key secret) = some t := by
      refine find?_of_key_unique (fun x => x.token_hash) _ db t hp hmem ?_ ?_
      · rw [Bool.and_eq_true, beq_iff_eq]
        exact ⟨hhash, hact⟩
      · intro u hu
        rw [Bool.and_eq_true, beq_iff_eq] at hu
        exact hu.1.trans hhash.symm
    rw [validate_token, hfind]
    simp [isExpiredAt, hexpeq, hlt]
  · intro db secret_key secret now h
    have hnone : findByHashActive db (hashToken secret_key secret) = none := by
      rw [findByHashActive, List.find?_eq_none]
      intro u hu hcontra
      rw [Bool.and_eq_true, beq_iff_eq] at hcontra
      exact absurd hcontra.1 (h u hu)
    rw [validate_token, hnone]

/-- C1 witness: an active token whose expiry instant 50 lies before the
current instant 100 is rejected with the `none` outcome. -/
theorem C1_zero_expiry_amended_witness :
    validate_token
      [{ id := "tid", name := "n", token_hash := hashToken "k" "s", created_at := 0,
         last_used := none, expires_at := some 50, permissions := "standard",
         active := true, usage_count := 0 }] "k" "s" 100 =
      (none,
       [{ id := "tid", name := "n", token_hash := hashToken "k" "s", created_at := 0,
          last_used := none, expires_at := some 50, permissions := "standard",
          active := true, usage_count := 0 }]) :=
  C1_zero_expiry_amended.2.2.1
    [{ id := "tid", name := "n", token_hash := hashToken "k" "s", created_at := 0,
       last_used := none, expires_at := some 50, permissions := "standard",
       active := true, usage_count := 0 }] "k" "s" 100
    { id := "tid", name := "n", token_hash := hashToken "k" "s", created_at := 0,
      last_used := none, expires_at := some 50, permissions := "standard",
      active := true, usage_count := 0 } 50
    (by simp) (by simp) rfl rfl rfl (by norm_num)

/-! ### C4 — generated-secret format and hashing -/

lemma take6_cons (a b c d e f : Char) (l : List Char) :
    (a :: b :: c :: d :: e :: f :: l).take 6 = [a, b, c, d, e, f] := rfl

/-- Length of a padding-stripped base64url encoding, by input length. -/
def b64LenFn : Nat → Nat
  | 0 => 0
  | 1 => 2
  | 2 => 3
  | n + 3 => 4 + b64LenFn n

lemma b64urlEncode_length : ∀ l : List Nat, (b64urlEncode l).length = b64LenFn l.length
  | [] => rfl
  | [_] => rfl
  | [_, _] => rfl
  | a :: b :: c :: rest => by
      simp only [b64urlEncode, List.length_cons, b64LenFn,
        b64urlEncode_length rest]
      omega

lemma alphabet_contains_getD :
    ∀ i : Fin 62, tokenAlphabet.contains (tokenAlphabet.getD i.val 'a') = true := by
  decide

/-- C4 counterexample: the raw secret produced by `TokenManager.create_token`
(`enact_` + `token_urlsafe(32)`, 49 characters) FAILS
`verify_token_format`, which expects exactly 38 characters, contradicting
the claim that every generated secret passes the format check. -/
theorem C4_counterexample :
    verify_token_format
      ((create_token [] "k" "tid" (List.replicate 32 0) "n" "standard" none 0).2.2) =
      false := by
  decide

/-- C4 (amended): (i) every secret produced by
`TokenSecurity.generate_token` (32 alphanumeric draws) passes
`verify_token_format`; (ii) the secret produced by
`TokenManager.create_token` NEVER passes it — `token_urlsafe(32)` yields 43
url-safe characters, so the token is 49 characters long instead of the
expected 38; (iii) `hash_token` is deterministic: equal server keys and
equal secrets give equal digests. -/
theorem C4_token_format_amended :
    (∀ draws : List (Fin 62), draws.length = 32 →
      verify_token_format (generate_token draws) = true) ∧
    (∀ (randomBytes : List Nat) (db : List Token)
        (secret_key token_id name permissions : String)
        (expires_days : Option Int) (now : Int),
      randomBytes.length = 32 →
      verify_token_format
        ((create_token db secret_key token_id randomBytes name permissions
          expires_days now).2.2) = false) ∧
    (∀ k1 k2 s1 s2 : String, k1 = k2 → s1 = s2 → hashToken k1 s1 = hashToken k2 s2) := by
  refine ⟨?_, ?_, ?_⟩
  · intro draws hlen
    have hcs : (generate_token draws).toList =
        'e' :: 'n' :: 'a' :: 'c' :: 't' :: '_' ::
          draws.map (fun i => tokenAlphabet.getD i.val 'a') := by
      simp [generate_token, String.toList]
    rw [verify_token_format]
    simp only [hcs, take6_cons, List.length_cons, List.length_map, hlen]
    simp only [TOKEN_LENGTH]
    rw [if_neg (by simp), if_neg (by simp)]
    rw [List.all_eq_true]
    intro c hc
    rcases List.mem_map.mp hc with ⟨i, _, hi⟩
    rw [← hi]
    exact alphabet_contains_getD i
  · intro randomBytes db secret_key token_id name permissions expires_days now hlen
    have h43 : (b64urlEncode randomBytes).length = 43 := by
      rw [b64urlEncode_length, hlen]
      decide
    have hcs : ((create_token db secret_key token_id randomBytes name permissions
        expires_days now).2.2).toList =
        'e' :: 'n' :: 'a' :: 'c' :: 't' :: '_' :: b64urlEncode randomBytes := by
      simp [create_token, token_urlsafe, String.toList]
    rw [verify_token_format]
    simp only [hcs, take6_cons, List.length_cons, h43]
    simp only [TOKEN_LENGTH]
    rw [if_neg (by simp)]
    rw [if_pos (by simp)]
  · intro k1 k2 s1 s2 hk hs
    rw [hk, hs]

/-- C4 witness: a concrete 32-draw secret passes the format check, and
hashing is reproducible on concrete inputs. -/
theorem C4_token_format_amended_witness :
    verify_token_format (generate_token (List.replicate 32 ⟨0, by norm_num⟩)) = true ∧
    hashToken "k" "s" = hashToken "k" "s" :=
  ⟨C4_token_format_amended.1 (List.replicate 32 ⟨0, by norm_num⟩) (by simp),
   C4_token_format_amended.2.2 "k" "k" "s" "s" rfl rfl⟩

/-! ### C6 — IP whitelist semantics -/

/-- The claim's per-entry acceptance predicate: exact equality with the
entry, or membership in the entry read as a CIDR block. -/
def entryMatches (v : Nat) (e : String) : Bool :=
  if e.toList.contains '/' then
    match parseNetworkStr e with
    | none => false
    | some net => ipInNetwork v net
  else ipToString v == e

lemma whitelistScan_eq_any (v : Nat) :
    ∀ wl : List String,
      (∀ e ∈ wl, e.toList.contains '/' = true → (parseNetworkStr e).isSome = true) →
      whitelistScan v wl = wl.any (fun e => entryMatches v e)
  | [], _ => rfl
  | e :: rest, h => by
      have hrest := whitelistScan_eq_any v rest
        (fun u hu hc => h u (List.mem_cons_of_mem e hu) hc)
      by_cases hc : '/' ∈ e.data
      · rcases hn : parseNetworkStr e with _ | net
        · exact absurd (h e (List.mem_cons_self e rest) (by simp [hc])) (by simp [hn])
        · by_cases hin : ipInNetwork v net = true
          · simp [whitelistScan, entryMatches, hc, hn, hin]
          · simp [whitelistScan, entryMatches, hc, hn, hin, hrest]
      · by_cases heq : ipToString v = e
        · simp [whitelistScan, entryMatches, hc, heq]
        · simp [whitelistScan, entryMatches, hc, heq, hrest]

/-- C6 counterexample: the claim's acceptance condition holds — the
candidate parses and exactly equals a whitelist entry — yet the check
rejects, because a malformed CIDR entry earlier in the list raises
`ValueError` and the `except` handler returns `False` for the whole call. -/
theorem C6_counterexample :
    is_ip_in_whitelist "10.0.0.1" (some ["0.0.0.0/bad", "10.0.0.1"]) = false ∧
    (parseIPv4 "10.0.0.1").isSome = true ∧
    "10.0.0.1" ∈ ["0.0.0.0/bad", "10.0.0.1"] := by
  refine ⟨by decide, by decide, by decide⟩

/-- C6 (amended): (i) an absent whitelist admits every address; (ii) with a
non-empty whitelist a candidate that does not parse is rejected (fail
closed, and the Lean embedding is a total function — no exception
escapes); (iii) when every '/'-entry of a non-empty whitelist parses as a
CIDR network, a parsed candidate is accepted iff it exactly equals some
entry or lies inside some CIDR entry.  (A malformed '/'-entry scanned
before any match makes the check reject regardless, as the counterexample
shows, and a present-but-empty whitelist admits everything.) -/
theorem C6_ip_whitelist_amended :
    (∀ a : String, is_ip_in_whitelist a none = true) ∧
    (∀ (a : String) (wl : List String), wl ≠ [] → parseIPv4 a = none →
      is_ip_in_whitelist a (some wl) = false) ∧
    (∀ (a : String) (v : Nat) (wl : List String), wl ≠ [] →
      (∀ e ∈ wl, e.toList.contains '/' = true → (parseNetworkStr e).isSome = true) →
      parseIPv4 a = some v →
      (is_ip_in_whitelist a (some wl) = true ↔
        ∃ e ∈ wl, entryMatches v e = true)) := by
  refine ⟨fun a => rfl, ?_, ?_⟩
  · intro a wl hne hp
    rw [is_ip_in_whitelist, if_neg (by simp [hne]), hp]
  · intro a v wl hne hw hp
    rw [is_ip_in_whitelist, if_neg (by simp [hne]), hp]
    show whitelistScan v wl = true ↔ _
    rw [whitelistScan_eq_any v wl hw, List.any_eq_true]

/-- C6 witness: an address inside the CIDR block `10.0.0.0/24` is accepted
and a near-miss one bit outside the block is rejected. -/
theorem C6_ip_whitelist_amended_witness :
    is_ip_in_whitelist "10.0.0.5" (some ["10.0.0.0/24"]) = true ∧
    is_ip_in_whitelist "10.0.1.5" (some ["10.0.0.0/24"]) = false := by
  constructor
  · exact (C6_ip_whitelist_amended.2.2 "10.0.0.5" 167772165 ["10.0.0.0/24"]
      (by decide) (by decide) (by decide)).mpr ⟨"10.0.0.0/24", by decide, by decide⟩
  · have h := C6_ip_whitelist_amended.2.2 "10.0.1.5" 167772421 ["10.0.0.0/24"]
      (by decide) (by decide) (by decide)
    cases hb : is_ip_in_whitelist "10.0.1.5" (some ["10.0.0.0/24"]) with
    | false => rfl
    | true =>
      obtain ⟨e, he, hm⟩ := h.mp hb
      simp only [List.mem_singleton] at he
      subst he
      exact absurd hm (by decide)

/-! ### C5 — rotation: new secret valid, old secret revoked -/

lemma find?_append_left_some {α : Type} (p : α → Bool) :
    ∀ (l₁ l₂ : List α) (t : α), l₁.find? p = some t → (l₁ ++ l₂).find? p = some t
  | [], _, _, h => by simp at h
  | u :: rest, l₂, t, h => by
      cases hu : p u with
      | true =>
        rw [List.find?_cons_of_pos rest hu] at h
        rw [List.cons_append, List.find?_cons_of_pos _ hu]
        exact h
      | false =>
        rw [List.find?_cons_of_neg rest (by simp [hu])] at h
        rw [List.cons_append, List.find?_cons_of_neg _ (by simp [hu])]
        exact find?_append_left_some p rest l₂ t h

lemma is_rate_limited_empty (token_id : String) (rl : Nat) (wh now : Int)
    (h : 1 ≤ rl) :
    is_rate_limited [] token_id rl wh now = (false, [(token_id, [now])]) := by
  simp only [is_rate_limited, getWindow]
  rw [if_neg (by simp only [Option.getD_none, List.filter_nil, List.length_nil]; omega)]
  simp [setWindow]

/-- Success test on an `authenticate` outcome. -/
def authOk (r : Except AuthError AuthSuccess) : Bool :=
  match r with
  | .ok _ => true
  | .error _ => false

lemma db_revoke_find_by_hash (db : List MToken) (token_id revoker reason : String)
    (now : Int) (h : String) (old : MToken)
    (hph : db.Pairwise (fun a b => a.hashed_token ≠ b.hashed_token))
    (hmem : old ∈ db) (hhash : old.hashed_token = h) (hid : old.id = token_id) :
    (db_revoke_token db token_id revoker reason now).find?
      (fun t => t.hashed_token == h) =
      some { old with is_active := false, revoked_at := some now,
                      revoked_by := some revoker, revoked_reason := some reason } := by
  rw [db_revoke_token]
  refine find?_of_key_unique (fun x => x.hashed_token) _ _ _ ?_ ?_ ?_ ?_
  · rw [List.pairwise_map]
    refine hph.imp (fun {a b} hab => ?_)
    by_cases ha : (a.id == token_id) = true <;>
      by_cases hb : (b.id == token_id) = true <;> simp [ha, hb] <;> exact hab
  · have hmm := List.mem_map_of_mem (fun t : MToken =>
      if t.id == token_id then
        { t with is_active := false, revoked_at := some now,
                 revoked_by := some revoker, revoked_reason := some reason }
      else t) hmem
    simpa [hid] using hmm
  · simp [hhash]
  · intro u hu
    rw [beq_iff_eq] at hu
    show u.hashed_token = _
    rw [hu]
    exact hhash.symm

lemma db_revoke_find_none (db : List MToken) (token_id revoker reason : String)
    (now : Int) (h : String)
    (hall : ∀ t ∈ db, t.hashed_token ≠ h) :
    (db_revoke_token db token_id revoker reason now).find?
      (fun t => t.hashed_token == h) = none := by
  rw [db_revoke_token, List.find?_eq_none]
  intro u hu
  rcases List.mem_map.mp hu with ⟨t, ht, rfl⟩
  by_cases hc : (t.id == token_id) = true <;> simp [hc, hall t ht]

/-- C5: given an active, unexpired token and fresh CSPRNG draws,
`rotate_token` succeeds and, writing `db'` for the table it produces:
before rotation the old secret authenticates and the new one is rejected
as an unknown credential; after rotation the new secret authenticates and
the old one is rejected as `Revoked`.  In each of the two states produced
by the single-step rotation, exactly one of the two secrets is valid. -/
theorem C5_rotate_token (db : List MToken)
    (secret_key identifier new_id new_secret revoker oldSecret : String)
    (old : MToken) (now : Int)
    (hph : db.Pairwise (fun a b => a.hashed_token ≠ b.hashed_token))
    (hpi : db.Pairwise (fun a b => a.id ≠ b.id))
    (hmem : old ∈ db) (hid : old.id = identifier)
    (hact : old.is_active = true)
    (hexp : isExpiredAt old.expires_at now = false)
    (hosec : verify_token_format oldSecret = true)
    (hohash : old.hashed_token = hashToken secret_key oldSecret)
    (hnsec : verify_token_format new_secret = true)
    (hfresh : ∀ t ∈ db, t.hashed_token ≠ hashToken secret_key new_secret)
    (hrl : 1 ≤ old.rate_limit) :
    ∃ db', rotate_token db secret_key identifier new_id new_secret revoker now =
        some (db', new_secret) ∧
      authOk (authenticate db [] secret_key oldSecret none none now).1 = true ∧
      (authenticate db [] secret_key new_secret none none now).1 =
        .error .invalidCredential ∧
      authOk (authenticate db' [] secret_key new_secret none none now).1 = true ∧
      (authenticate db' [] secret_key oldSecret none none now).1 = .error .revoked := by
  have hgid : db_get_token_by_id db identifier = some old := by
    refine find?_of_key_unique (fun x => x.id) _ db old hpi hmem (by simp [hid]) ?_
    intro u hu
    rw [beq_iff_eq] at hu
    show u.id = old.id
    rw [hu, hid]
  refine ⟨db_revoke_token db old.id revoker "Rotated" now ++
    [⟨new_id, hashToken secret_key new_secret, old.name, old.permissions,
      old.rate_limit, old.allowed_tools, old.ip_whitelist, old.expires_at,
      now, none, 0, true, none, none, none⟩], ?_, ?_, ?_, ?_, ?_⟩
  · rw [rotate_token, hgid]
    rfl
  · -- pre-state, old secret: success
    have hfindo : db.find? (fun t => t.hashed_token == hashToken secret_key oldSecret) =
        some old := by
      refine find?_of_key_unique (fun x => x.hashed_token) _ db old hph hmem
        (by simp [hohash]) ?_
      intro u hu
      rw [beq_iff_eq] at hu
      show u.hashed_token = old.hashed_token
      rw [hu, hohash]
    rw [authenticate, if_neg (by simp [hosec]), hfindo]
    simp [hact, hexp, toolAllowed, Option.any,
      is_rate_limited_empty old.id old.rate_limit 1 now hrl, authOk]
  · -- pre-state, new secret: unknown credential
    have hnone : db.find? (fun t => t.hashed_token == hashToken secret_key new_secret) =
        none := by
      rw [List.find?_eq_none]
      intro u hu hcontra
      rw [beq_iff_eq] at hcontra
      exact absurd hcontra (hfresh u hu)
    rw [authenticate, if_neg (by simp [hnsec]), hnone]
  · -- post-state, new secret: success
    have hleft := List.find?_eq_none.mp
      (db_revoke_find_none db old.id revoker "Rotated" now
        (hashToken secret_key new_secret) hfresh)
    rw [authenticate, if_neg (by simp [hnsec]),
      find?_append_left_none _ _ _ (fun u hu => by simpa using hleft u hu),
      List.find?_cons_of_pos _ (by simp)]
    simp [hexp, toolAllowed, Option.any,
      is_rate_limited_empty new_id old.rate_limit 1 now hrl, authOk]
  · -- post-state, old secret: revoked
    rw [authenticate, if_neg (by simp [hosec]),
      find?_append_left_some _ _ _ _
        (db_revoke_find_by_hash db old.id revoker "Rotated" now
          (hashToken secret_key oldSecret) old hph hmem hohash rfl)]
    rfl

set_option maxRecDepth 400000 in
/-- C5 witness: a concrete single-token table; rotation revokes the old
credential and installs the new one, with exactly one of the two secrets
valid before and after. -/
theorem C5_rotate_token_witness :
    ∃ db', rotate_token
        [⟨"tid", hashToken "k" "enact_aaaaaaaaaaaaaaaaaaaaaaaaaaaaaaaa", "n",
          "standard", 1000, none, none, none, 0, none, 0, true, none, none, none⟩]
        "k" "tid" "tid2" "enact_bbbbbbbbbbbbbbbbbbbbbbbbbbbbbbbb" "cli" 100 =
        some (db', "enact_bbbbbbbbbbbbbbbbbbbbbbbbbbbbbbbb") ∧
      authOk (authenticate
        [⟨"tid", hashToken "k" "enact_aaaaaaaaaaaaaaaaaaaaaaaaaaaaaaaa", "n",
          "standard", 1000, none, none, none, 0, none, 0, true, none, none, none⟩]
        [] "k" "enact_aaaaaaaaaaaaaaaaaaaaaaaaaaaaaaaa" none none 100).1 = true ∧
      (authenticate
        [⟨"tid", hashToken "k" "enact_aaaaaaaaaaaaaaaaaaaaaaaaaaaaaaaa", "n",
          "standard", 1000, none, none, none, 0, none, 0, true, none, none, none⟩]
        [] "k" "enact_bbbbbbbbbbbbbbbbbbbbbbbbbbbbbbbb" none none 100).1 =
        .error .invalidCredential ∧
      authOk (authenticate db' [] "k" "enact_bbbbbbbbbbbbbbbbbbbbbbbbbbbbbbbb"
        none none 100).1 = true ∧
      (authenticate db' [] "k" "enact_aaaaaaaaaaaaaaaaaaaaaaaaaaaaaaaa"
        none none 100).1 = .error .revoked :=
  C5_rotate_token
    [⟨"tid", hashToken "k" "enact_aaaaaaaaaaaaaaaaaaaaaaaaaaaaaaaa", "n",
      "standard", 1000, none, none, none, 0, none, 0, true, none, none, none⟩]
    "k" "tid" "tid2" "enact_bbbbbbbbbbbbbbbbbbbbbbbbbbbbbbbb" "cli"
    "enact_aaaaaaaaaaaaaaaaaaaaaaaaaaaaaaaa"
    ⟨"tid", hashToken "k" "enact_aaaaaaaaaaaaaaaaaaaaaaaaaaaaaaaa", "n",
      "standard", 1000, none, none, none, 0, none, 0, true, none, none, none⟩ 100
    (by simp) (by simp) (by simp) rfl rfl rfl (by decide) rfl (by decide)
    (by decide) (by decide)

end CongressMcp
